import Mathlib

/-!
Shallow embedding of the adaptive evaluation engine of the CodeTutor
repository (backend/src/routes/user.routes.ts,
backend/src/services/difficulty.service.ts,
backend/src/services/proficiency.service.ts).

JavaScript numbers are modelled as exact rationals (ℚ); `Math.round` is
modelled as round-half-up toward +infinity, which is its JS semantics.
-/

namespace CodeTutor

/-- JS `Math.round`: rounds half-way cases toward positive infinity. -/
def jsRound (q : ℚ) : ℤ := ⌊q + 1/2⌋

/-- Result record of `calculateScoreFactors` (user.routes.ts, lines 436-487). -/
structure ScoreFactors where
  correctnessCoeff : ℚ
  timeCoeff : ℚ
  hintPenalty : ℚ
  qualityCoeff : ℚ
  finalScore : ℤ
deriving Repr, DecidableEq

/-- `const passRate = totalCount > 0 ? passedCount / totalCount : 0;`
(user.routes.ts line 444). -/
def passRateOf (passedCount totalCount : ℤ) : ℚ :=
  if 0 < totalCount then (passedCount : ℚ) / (totalCount : ℚ) else 0

/-- Correctness coefficient (user.routes.ts lines 445-448): starts at 0,
set to 1.0 when passRate is exactly 1.0, else 0.7 when ≥ 0.8,
else 0.4 when ≥ 0.5. -/
def correctnessCoeffOf (passRate : ℚ) : ℚ :=
  if passRate = 1 then 1
  else if 0.8 ≤ passRate then 0.7
  else if 0.5 ≤ passRate then 0.4
  else 0

/-- Expected-time band (user.routes.ts lines 452-456). The source constants
are 300, 600, 900, 1200, 1800, commented as 5, 10, 15, 20, 30 minutes. -/
def expectedTimeOf (difficulty : ℤ) : ℚ :=
  if difficulty ≤ 2 then 300
  else if difficulty ≤ 4 then 600
  else if difficulty ≤ 6 then 900
  else if difficulty ≤ 8 then 1200
  else 1800

/-- Time coefficient (user.routes.ts lines 458-463):
`timeRatio = executionTime / expectedTime`, then the piecewise table. -/
def timeCoeffOf (executionTime : ℚ) (difficulty : ℤ) : ℚ :=
  let timeRatio := executionTime / expectedTimeOf difficulty
  if timeRatio < 0.5 then 1.2
  else if timeRatio ≤ 1 then 1
  else if timeRatio ≤ 2 then 0.9
  else 0.7

/-- Hint penalty (user.routes.ts lines 466-473): 1.0 on an empty list,
otherwise determined by `Math.max(...hintsUsed)`. -/
def hintPenaltyOf (hintsUsed : List ℤ) : ℚ :=
  match hintsUsed with
  | [] => 1
  | h :: t =>
    let maxHintLevel := t.foldl max h
    if maxHintLevel = 1 then 0.95
    else if maxHintLevel = 2 then 0.85
    else if maxHintLevel = 3 then 0.7
    else if maxHintLevel = 4 then 0.5
    else 1

/-- `const qualityCoeff = codeQuality || 1.0;` (user.routes.ts line 476).
JS `||` substitutes 1.0 both when the argument is absent and when it is
the falsy number 0. -/
def qualityCoeffOf (codeQuality : Option ℚ) : ℚ :=
  match codeQuality with
  | none => 1
  | some q => if q = 0 then 1 else q

/-- `calculateScoreFactors` (user.routes.ts lines 436-487). -/
def calculateScoreFactors (passedCount totalCount : ℤ) (executionTime : ℚ)
    (difficulty : ℤ) (hintsUsed : List ℤ) (codeQuality : Option ℚ) :
    ScoreFactors :=
  let correctnessCoeff := correctnessCoeffOf (passRateOf passedCount totalCount)
  let timeCoeff := timeCoeffOf executionTime difficulty
  let hintPenalty := hintPenaltyOf hintsUsed
  let qualityCoeff := qualityCoeffOf codeQuality
  { correctnessCoeff := correctnessCoeff
    timeCoeff := timeCoeff
    hintPenalty := hintPenalty
    qualityCoeff := qualityCoeff
    finalScore :=
      jsRound (100 * correctnessCoeff * timeCoeff * hintPenalty * qualityCoeff) }

/-- `qualityCoeff = (codeAnalysis.overallScore || 10) / 10` in the submit
handler (user.routes.ts lines 590-592): a falsy overallScore of 0 is
replaced by 10 before the division. -/
def qualityFromOverallScore (overallScore : ℚ) : ℚ :=
  (if overallScore = 0 then 10 else overallScore) / 10

/-! ## Difficulty service (difficulty.service.ts) -/

inductive Direction where
  | up
  | down
deriving Repr, DecidableEq

/-- Result record of `evaluateDifficultyAdjustment` (difficulty.service.ts).
The human-readable `reason` string of the source is elided: no claim
mentions it and it carries no decision content. -/
structure DifficultyAdjustment where
  shouldAdjust : Bool
  newLevel : Option ℤ
  direction : Option Direction
deriving Repr, DecidableEq

/-- `shouldIncreaseDifficulty` (difficulty.service.ts lines 101-126):
blocked at level ≥ 10; rule 1: `scores.slice(0,3).every(s => s >= 80)`
when at least 3 scores; rule 2: at least 5 scores and average ≥ 85. -/
def shouldIncreaseDifficulty (scores : List ℚ) (averageScore : ℚ)
    (currentLevel : ℤ) : Bool :=
  if 10 ≤ currentLevel then false
  else if 3 ≤ scores.length ∧ ∀ s ∈ scores.take 3, 80 ≤ s then true
  else if 5 ≤ scores.length ∧ 85 ≤ averageScore then true
  else false

/-- `shouldDecreaseDifficulty` (difficulty.service.ts lines 128-154):
blocked at level ≤ 1; rule 1: `scores.slice(0,2).every(s => s < 50)` when
at least 2 scores; rule 2: at least 5 scores and average < 40. -/
def shouldDecreaseDifficulty (scores : List ℚ) (averageScore : ℚ)
    (currentLevel : ℤ) : Bool :=
  if currentLevel ≤ 1 then false
  else if 2 ≤ scores.length ∧ ∀ s ∈ scores.take 2, s < 50 then true
  else if 5 ≤ scores.length ∧ averageScore < 40 then true
  else false

/-- Decision core of `evaluateDifficultyAdjustment` (difficulty.service.ts
lines 60-96), taking the already-fetched most-recent-first score list
(the source fetches at most 5 scored submissions, newest first, and
bails out on an empty score list before computing the average; the
separate `recentSubmissions.length < 2` guard upstream cannot change the
decision, since every rule below demands at least 2 scores). -/
def evaluateDifficultyCore (currentLevel : ℤ) (scores : List ℚ) :
    DifficultyAdjustment :=
  if scores.length = 0 then ⟨false, none, none⟩
  else
    let averageScore := scores.sum / (scores.length : ℚ)
    if shouldIncreaseDifficulty scores averageScore currentLevel then
      ⟨true, some (min (currentLevel + 1) 10), some Direction.up⟩
    else if shouldDecreaseDifficulty scores averageScore currentLevel then
      ⟨true, some (max (currentLevel - 1) 1), some Direction.down⟩
    else ⟨false, none, none⟩

/-! ## Proficiency service (proficiency.service.ts) -/

/-- Score-to-delta step function (proficiency.service.ts lines 39-52). -/
def proficiencyDelta (score : ℚ) : ℚ :=
  if 90 ≤ score then 0.3
  else if 80 ≤ score then 0.2
  else if 70 ≤ score then 0.1
  else if 60 ≤ score then 0
  else if 50 ≤ score then -0.1
  else -0.2

/-- `Math.round(x * 10) / 10` (proficiency.service.ts line 58). -/
def round1 (x : ℚ) : ℚ := (jsRound (x * 10) : ℚ) / 10

/-- `const current = updatedProficiency[type] || 5;` (proficiency.service.ts
line 36): an absent entry — and, by JS falsiness, a stored 0 — defaults
to 5. -/
def profCurrent (v : Option ℚ) : ℚ :=
  match v with
  | none => 5
  | some q => if q = 0 then 5 else q

/-- One iteration of the `problemAlgorithmTypes.forEach` body
(proficiency.service.ts lines 35-59): clamp `current + adjustment` to
[1, 10] with `Math.max(1, Math.min(10, ...))`, then round to 1 decimal. -/
def profStep (score : ℚ) (prof : String → Option ℚ) (t : String) :
    String → Option ℚ :=
  fun k =>
    if k = t then
      some (round1 (max 1 (min 10 (profCurrent (prof t) + proficiencyDelta score))))
    else prof k

/-- Pure core of `updateAlgorithmProficiency` (proficiency.service.ts lines
15-72): the proficiency map (JSON object, modelled as a partial map from
category strings) folded through the per-type update. -/
def updateAlgorithmProficiency (prof : String → Option ℚ)
    (problemAlgorithmTypes : List String) (score : ℚ) : String → Option ℚ :=
  problemAlgorithmTypes.foldl (profStep score) prof

/-- `[...recentScores.slice(-9), score]`, the recent-score push used both by
`updateRecentPerformance` (proficiency.service.ts line 97) and by the
accepted branch of the submit handler (user.routes.ts line 655):
keep the last 9 entries, then append the new score. -/
def pushRecentScore (recentScores : List ℚ) (score : ℚ) : List ℚ :=
  recentScores.drop (recentScores.length - 9) ++ [score]

/-! ## Submit-handler pipeline effects on user statistics
(user.routes.ts POST /submit) -/

/-- The user-statistics fields touched by the submit handler. -/
structure UserStats where
  totalSubmissions : ℕ
  totalProblemsSolved : ℕ
  recentScores : List ℚ
deriving Repr, DecidableEq

/-- `status = passRate === 100 ? 'accepted' : 'wrong_answer'` with
`passRate = totalCount > 0 ? (passedCount / totalCount) * 100 : 0`
(user.routes.ts lines 568-571). -/
def submissionAccepted (passedCount totalCount : ℤ) : Bool :=
  (if 0 < totalCount then (passedCount : ℚ) / (totalCount : ℚ) * 100 else 0) = 100

/-- Net effect of the submit handler on the user-statistics fields
(user.routes.ts lines 643-666 and 684-686): when accepted, one update
increments both counters and pushes the score into `recentScores`;
otherwise only `totalSubmissions` is incremented; afterwards
`updateRecentPerformance` pushes the score again, unconditionally
(`updateAlgorithmProficiency` does not touch these fields). -/
def submitUserStatsUpdate (accepted : Bool) (finalScore : ℚ)
    (u : UserStats) : UserStats :=
  let u1 :=
    if accepted then
      { totalSubmissions := u.totalSubmissions + 1
        totalProblemsSolved := u.totalProblemsSolved + 1
        recentScores := pushRecentScore u.recentScores finalScore }
    else { u with totalSubmissions := u.totalSubmissions + 1 }
  { u1 with recentScores := pushRecentScore u1.recentScores finalScore }

/-- Spec-modelled checked wrapper, for comparison with the code. The spec
states that the scoring computation rejects out-of-domain inputs
(negative counts) with an InvalidInput error; `calculateScoreFactors`
itself has no error path. -/
def computeScoreSpecChecked (passedCount totalCount : ℤ) (executionTime : ℚ)
    (difficulty : ℤ) (hintsUsed : List ℤ) (codeQuality : Option ℚ) :
    Except String ScoreFactors :=
  if passedCount < 0 ∨ totalCount < 0 then Except.error "InvalidInput"
  else Except.ok
    (calculateScoreFactors passedCount totalCount executionTime difficulty
      hintsUsed codeQuality)

/-! ## Helper lemmas -/

lemma expectedTimeOf_pos (d : ℤ) : 0 < expectedTimeOf d := by
  unfold expectedTimeOf
  split_ifs <;> norm_num

lemma correctnessCoeffOf_nonneg (r : ℚ) : 0 ≤ correctnessCoeffOf r := by
  unfold correctnessCoeffOf
  split_ifs <;> norm_num

lemma timeCoeffOf_nonneg (t : ℚ) (d : ℤ) : 0 ≤ timeCoeffOf t d := by
  unfold timeCoeffOf
  simp only []
  split_ifs <;> norm_num

lemma jsRound_mono {a b : ℚ} (h : a ≤ b) : jsRound a ≤ jsRound b := by
  unfold jsRound
  exact Int.floor_le_floor (by linarith)

lemma correctnessCoeff_eq (p t : ℤ) (e : ℚ) (d : ℤ) (hs : List ℤ)
    (q : Option ℚ) :
    (calculateScoreFactors p t e d hs q).correctnessCoeff =
      correctnessCoeffOf (passRateOf p t) := rfl

lemma passRateOf_le_one {p t : ℤ} (hpt : p ≤ t) : passRateOf p t ≤ 1 := by
  unfold passRateOf
  split_ifs with h
  · rw [div_le_one (by exact_mod_cast h)]
    exact_mod_cast hpt
  · norm_num

lemma shouldIncrease_iff (scores : List ℚ) (avg : ℚ) (lvl : ℤ) :
    shouldIncreaseDifficulty scores avg lvl = true ↔
      lvl < 10 ∧
        ((3 ≤ scores.length ∧ ∀ s ∈ scores.take 3, 80 ≤ s) ∨
         (5 ≤ scores.length ∧ 85 ≤ avg)) := by
  unfold shouldIncreaseDifficulty
  split_ifs with h1 h2 h3 <;> simp_all

lemma shouldDecrease_iff (scores : List ℚ) (avg : ℚ) (lvl : ℤ) :
    shouldDecreaseDifficulty scores avg lvl = true ↔
      1 < lvl ∧
        ((2 ≤ scores.length ∧ ∀ s ∈ scores.take 2, s < 50) ∨
         (5 ≤ scores.length ∧ avg < 40)) := by
  unfold shouldDecreaseDifficulty
  split_ifs with h1 h2 h3 <;> simp_all

lemma foldl_profStep_not_mem (score : ℚ) (ts : List String)
    (f : String → Option ℚ) (k : String) (hk : k ∉ ts) :
    ts.foldl (profStep score) f k = f k := by
  induction ts generalizing f with
  | nil => rfl
  | cons t ts ih =>
    rw [List.foldl_cons, ih _ (fun h => hk (List.mem_cons_of_mem t h))]
    unfold profStep
    rw [if_neg (fun h => hk (by rw [h]; exact List.mem_cons_self t ts))]

lemma foldl_profStep_mem (score : ℚ) (ts : List String)
    (f : String → Option ℚ) (k : String) (hnd : ts.Nodup) (hk : k ∈ ts) :
    ts.foldl (profStep score) f k =
      some (round1 (max 1 (min 10 (profCurrent (f k) + proficiencyDelta score)))) := by
  induction ts generalizing f with
  | nil => cases hk
  | cons t ts ih =>
    rw [List.foldl_cons]
    rcases List.mem_cons.mp hk with hkt | hkts
    · subst hkt
      rw [foldl_profStep_not_mem _ _ _ _ (List.Nodup.not_mem hnd)]
      unfold profStep
      rw [if_pos rfl]
    · rw [ih _ (List.Nodup.of_cons hnd) hkts]
      have hne : k ≠ t := fun h => (List.Nodup.not_mem hnd) (h ▸ hkts)
      unfold profStep
      rw [if_neg hne]

lemma round1_clamp_bounds (x : ℚ) (h1 : 1 ≤ x) (h10 : x ≤ 10) :
    1 ≤ round1 x ∧ round1 x ≤ 10 := by
  unfold round1 jsRound
  constructor
  · rw [le_div_iff₀ (by norm_num : (0 : ℚ) < 10)]
    have : (10 : ℤ) ≤ ⌊x * 10 + 1 / 2⌋ := Int.le_floor.mpr (by push_cast; linarith)
    exact_mod_cast this
  · rw [div_le_iff₀ (by norm_num : (0 : ℚ) < 10)]
    have : ⌊x * 10 + 1 / 2⌋ ≤ 100 := by
      have := Int.floor_le (x * 10 + 1 / 2)
      have hlt : (⌊x * 10 + 1 / 2⌋ : ℚ) < 101 := by linarith
      exact_mod_cast Int.lt_add_one_iff.mp (by exact_mod_cast hlt)
    calc ((⌊x * 10 + 1 / 2⌋ : ℤ) : ℚ) ≤ (100 : ℚ) := by exact_mod_cast this
      _ ≤ 10 * 10 := by norm_num

lemma getLast?_append_singleton (l : List ℚ) (s : ℚ) :
    (l ++ [s]).getLast? = some s := by
  rw [List.getLast?_append_cons]
  rfl

/-! ## Claim theorems -/

/-- C1 counterexample: the code's expected-time band for difficulty 1 is
300, not the 300,000 ms the claim states; accordingly, on the inputs of
the spec's own end-to-end scenario 1 (all passed, executionTime 250000,
difficulty 5) the time coefficient is 0.7, not the 1.2 a 900,000
denominator would give. -/
theorem expectedTime_band_not_milliseconds :
    expectedTimeOf 1 = 300 ∧ (300 : ℚ) ≠ 300000 ∧
    expectedTimeOf 5 = 900 ∧ (900 : ℚ) ≠ 900000 ∧
    (calculateScoreFactors 10 10 250000 5 [] none).timeCoeff = 0.7 := by
  refine ⟨by norm_num [expectedTimeOf], by norm_num, by norm_num [expectedTimeOf],
    by norm_num, ?_⟩
  norm_num [calculateScoreFactors, timeCoeffOf, expectedTimeOf]

/-- C1 (amended): for every difficulty, the expected time used as the
denominator of the time ratio is 300 when difficulty ≤ 2, 600 when ≤ 4,
900 when ≤ 6, 1200 when ≤ 8, and 1800 otherwise (values the source
comments label as 5/10/15/20/30 minutes — not values in milliseconds),
and the time coefficient is determined from
ratio = executionTime / expectedTime: 1.2 below ratio 0.5, 1.0 up to
ratio 1, 0.9 up to ratio 2, else 0.7. -/
theorem expectedTime_band_and_time_coefficient (d : ℤ) (t : ℚ) :
    expectedTimeOf d =
      (if d ≤ 2 then 300 else if d ≤ 4 then 600 else if d ≤ 6 then 900
       else if d ≤ 8 then 1200 else 1800) ∧
    timeCoeffOf t d =
      (if 2 * t < expectedTimeOf d then 1.2
       else if t ≤ expectedTimeOf d then 1
       else if t ≤ 2 * expectedTimeOf d then 0.9
       else 0.7) := by
  have hE := expectedTimeOf_pos d
  refine ⟨rfl, ?_⟩
  have h1 : t / expectedTimeOf d < 0.5 ↔ 2 * t < expectedTimeOf d := by
    rw [div_lt_iff₀ hE]
    constructor <;> intro <;> linarith
  have h2 : t / expectedTimeOf d ≤ 1 ↔ t ≤ expectedTimeOf d := div_le_one hE
  have h3 : t / expectedTimeOf d ≤ 2 ↔ t ≤ 2 * expectedTimeOf d := div_le_iff₀ hE
  unfold timeCoeffOf
  simp only [h1, h2, h3]

/-- C3: the difficulty evaluation returns an increase to
min(currentLevel + 1, 10) with direction up exactly when currentLevel < 10
and either the 3 most recent scores are all ≥ 80 (at least 3 present) or
at least 5 scores are present with mean ≥ 85; otherwise a decrease to
max(currentLevel − 1, 1) with direction down exactly when currentLevel > 1
and either the 2 most recent scores are both < 50 (at least 2 present) or
at least 5 scores are present with mean < 40; otherwise no adjustment.
Increase is checked first, at most one adjustment fires, and the level
boundaries 10 and 1 block further movement. -/
theorem difficulty_evaluation_characterization (lvl : ℤ) (scores : List ℚ)
    (hlen : scores.length ≤ 5) :
    (evaluateDifficultyCore lvl scores =
        ⟨true, some (min (lvl + 1) 10), some Direction.up⟩ ↔
      lvl < 10 ∧
        ((3 ≤ scores.length ∧ ∀ s ∈ scores.take 3, 80 ≤ s) ∨
         (5 ≤ scores.length ∧ 85 ≤ scores.sum / (scores.length : ℚ)))) ∧
    (evaluateDifficultyCore lvl scores =
        ⟨true, some (max (lvl - 1) 1), some Direction.down⟩ ↔
      ¬(lvl < 10 ∧
        ((3 ≤ scores.length ∧ ∀ s ∈ scores.take 3, 80 ≤ s) ∨
         (5 ≤ scores.length ∧ 85 ≤ scores.sum / (scores.length : ℚ)))) ∧
      1 < lvl ∧
        ((2 ≤ scores.length ∧ ∀ s ∈ scores.take 2, s < 50) ∨
         (5 ≤ scores.length ∧ scores.sum / (scores.length : ℚ) < 40))) ∧
    (evaluateDifficultyCore lvl scores =
        ⟨true, some (min (lvl + 1) 10), some Direction.up⟩ ∨
     evaluateDifficultyCore lvl scores =
        ⟨true, some (max (lvl - 1) 1), some Direction.down⟩ ∨
     evaluateDifficultyCore lvl scores = ⟨false, none, none⟩) := by
  by_cases h0 : scores.length = 0
  · have hnil : scores = [] := List.length_eq_zero.mp h0
    subst hnil
    simp [evaluateDifficultyCore]
  · unfold evaluateDifficultyCore
    rw [if_neg h0]
    simp only []
    rcases hi :
        shouldIncreaseDifficulty scores (scores.sum / (scores.length : ℚ)) lvl with _ | _
    · have hni :
          ¬(lvl < 10 ∧
            ((3 ≤ scores.length ∧ ∀ s ∈ scores.take 3, 80 ≤ s) ∨
             (5 ≤ scores.length ∧ 85 ≤ scores.sum / (scores.length : ℚ)))) := by
        rw [← shouldIncrease_iff]
        simp [hi]
      rw [if_neg (by simp [hi])]
      rcases hd :
          shouldDecreaseDifficulty scores (scores.sum / (scores.length : ℚ)) lvl with _ | _
      · have hnd :
            ¬(1 < lvl ∧
              ((2 ≤ scores.length ∧ ∀ s ∈ scores.take 2, s < 50) ∨
               (5 ≤ scores.length ∧ scores.sum / (scores.length : ℚ) < 40))) := by
          rw [← shouldDecrease_iff]
          simp [hd]
        rw [if_neg (by simp [hd])]
        refine ⟨?_, ?_, Or.inr (Or.inr rfl)⟩
        · constructor
          · intro h
            exact absurd (congrArg DifficultyAdjustment.shouldAdjust h) (by simp)
          · intro h
            exact absurd h hni
        · constructor
          · intro h
            exact absurd (congrArg DifficultyAdjustment.shouldAdjust h) (by simp)
          · intro h
            exact absurd ⟨h.2.1, h.2.2⟩ hnd
      · have hdown := (shouldDecrease_iff scores (scores.sum / (scores.length : ℚ)) lvl).mp hd
        rw [if_pos (by simp [hd])]
        refine ⟨?_, ?_, Or.inr (Or.inl rfl)⟩
        · constructor
          · intro h
            exact absurd (congrArg DifficultyAdjustment.direction h) (by simp)
          · intro h
            exact absurd h hni
        · exact ⟨fun _ => ⟨hni, hdown.1, hdown.2⟩, fun _ => rfl⟩
    · have hup := (shouldIncrease_iff scores (scores.sum / (scores.length : ℚ)) lvl).mp hi
      rw [if_pos (by simp [hi])]
      refine ⟨⟨fun _ => hup, fun _ => rfl⟩, ?_, Or.inl rfl⟩
      constructor
      · intro h
        exact absurd (congrArg DifficultyAdjustment.direction h) (by simp)
      · intro h
        exact absurd hup h.1

/-- C3 witness: the theorem instantiated at currentLevel 4 with recent
scores [82, 85, 90] (the 3 most recent all ≥ 80, so the decision is an
increase to level 5). -/
theorem difficulty_evaluation_characterization_witness :
    [(82 : ℚ), 85, 90].length ≤ 5 ∧
    ((evaluateDifficultyCore 4 [82, 85, 90] =
        ⟨true, some (min (4 + 1) 10), some Direction.up⟩ ↔
      (4 : ℤ) < 10 ∧
        ((3 ≤ [(82 : ℚ), 85, 90].length ∧
            ∀ s ∈ [(82 : ℚ), 85, 90].take 3, 80 ≤ s) ∨
         (5 ≤ [(82 : ℚ), 85, 90].length ∧
            85 ≤ [(82 : ℚ), 85, 90].sum / ([(82 : ℚ), 85, 90].length : ℚ)))) ∧
     (evaluateDifficultyCore 4 [82, 85, 90] =
        ⟨true, some (max (4 - 1) 1), some Direction.down⟩ ↔
      ¬((4 : ℤ) < 10 ∧
        ((3 ≤ [(82 : ℚ), 85, 90].length ∧
            ∀ s ∈ [(82 : ℚ), 85, 90].take 3, 80 ≤ s) ∨
         (5 ≤ [(82 : ℚ), 85, 90].length ∧
            85 ≤ [(82 : ℚ), 85, 90].sum / ([(82 : ℚ), 85, 90].length : ℚ)))) ∧
      (1 : ℤ) < 4 ∧
        ((2 ≤ [(82 : ℚ), 85, 90].length ∧
            ∀ s ∈ [(82 : ℚ), 85, 90].take 2, s < 50) ∨
         (5 ≤ [(82 : ℚ), 85, 90].length ∧
            [(82 : ℚ), 85, 90].sum / ([(82 : ℚ), 85, 90].length : ℚ) < 40))) ∧
     (evaluateDifficultyCore 4 [82, 85, 90] =
        ⟨true, some (min (4 + 1) 10), some Direction.up⟩ ∨
      evaluateDifficultyCore 4 [82, 85, 90] =
        ⟨true, some (max (4 - 1) 1), some Direction.down⟩ ∨
      evaluateDifficultyCore 4 [82, 85, 90] = ⟨false, none, none⟩)) :=
  ⟨by simp, difficulty_evaluation_characterization 4 [82, 85, 90] (by simp)⟩

/-- C4: the correctness coefficient is the claimed piecewise function of
the pass rate on the domain 0 ≤ passedCount ≤ totalCount, and the
all-zero boundary input is treated as pass rate 0 and yields 0. -/
theorem correctness_coefficient_piecewise (p t : ℤ) (e : ℚ) (d : ℤ)
    (hs : List ℤ) (q : Option ℚ) (hp : 0 ≤ p) (hpt : p ≤ t) :
    (calculateScoreFactors p t e d hs q).correctnessCoeff =
      (if passRateOf p t = 1 then 1
       else if 0.8 ≤ passRateOf p t ∧ passRateOf p t < 1 then 0.7
       else if 0.5 ≤ passRateOf p t ∧ passRateOf p t < 0.8 then 0.4
       else 0) ∧
    passRateOf 0 0 = 0 ∧
    (calculateScoreFactors 0 0 e d hs q).correctnessCoeff = 0 := by
  have h1 := passRateOf_le_one hpt
  refine ⟨?_, by norm_num [passRateOf], by norm_num [calculateScoreFactors,
    correctnessCoeffOf, passRateOf]⟩
  rw [correctnessCoeff_eq]
  unfold correctnessCoeffOf
  by_cases hr1 : passRateOf p t = 1
  · rw [if_pos hr1, if_pos hr1]
  · have hlt : passRateOf p t < 1 := lt_of_le_of_ne h1 hr1
    by_cases hr08 : 0.8 ≤ passRateOf p t
    · rw [if_neg hr1, if_pos hr08, if_neg hr1, if_pos ⟨hr08, hlt⟩]
    · by_cases hr05 : 0.5 ≤ passRateOf p t
      · rw [if_neg hr1, if_neg hr08, if_pos hr05, if_neg hr1,
          if_neg (fun h => hr08 h.1), if_pos ⟨hr05, not_le.mp hr08⟩]
      · rw [if_neg hr1, if_neg hr08, if_neg hr05, if_neg hr1,
          if_neg (fun h => hr08 h.1), if_neg (fun h => hr05 h.1)]

/-- C4 witness: the theorem instantiated at passedCount 4, totalCount 5
(pass rate 0.8, correctness coefficient 0.7). -/
theorem correctness_coefficient_piecewise_witness :
    (0 : ℤ) ≤ 4 ∧ (4 : ℤ) ≤ 5 ∧
    ((calculateScoreFactors 4 5 0 1 [] none).correctnessCoeff =
      (if passRateOf 4 5 = 1 then 1
       else if 0.8 ≤ passRateOf 4 5 ∧ passRateOf 4 5 < 1 then 0.7
       else if 0.5 ≤ passRateOf 4 5 ∧ passRateOf 4 5 < 0.8 then 0.4
       else 0) ∧
     passRateOf 0 0 = 0 ∧
     (calculateScoreFactors 0 0 0 1 [] none).correctnessCoeff = 0) :=
  ⟨by norm_num, by norm_num,
    correctness_coefficient_piecewise 4 5 0 1 [] none (by norm_num) (by norm_num)⟩

/-- C5: the final score is round(100 × correctness × time × hintPenalty ×
quality) with no upper clamp: an all-passed submission with time ratio
below 0.5, no hints and quality 1.0 scores 120, exceeding 100. -/
theorem final_score_formula_unclamped :
    (∀ (p t : ℤ) (e : ℚ) (d : ℤ) (hs : List ℤ) (q : Option ℚ),
      (calculateScoreFactors p t e d hs q).finalScore =
        jsRound (100 * (calculateScoreFactors p t e d hs q).correctnessCoeff *
          (calculateScoreFactors p t e d hs q).timeCoeff *
          (calculateScoreFactors p t e d hs q).hintPenalty *
          (calculateScoreFactors p t e d hs q).qualityCoeff)) ∧
    (calculateScoreFactors 10 10 250 5 [] (some 1)).finalScore = 120 ∧
    (100 : ℤ) < (calculateScoreFactors 10 10 250 5 [] (some 1)).finalScore := by
  refine ⟨fun p t e d hs q => rfl, ?_, ?_⟩
  · norm_num [calculateScoreFactors, correctnessCoeffOf, passRateOf,
      timeCoeffOf, expectedTimeOf, hintPenaltyOf, qualityCoeffOf, jsRound]
  · norm_num [calculateScoreFactors, correctnessCoeffOf, passRateOf,
      timeCoeffOf, expectedTimeOf, hintPenaltyOf, qualityCoeffOf, jsRound]

/-- C9 counterexample: a negative passedCount is not rejected — the code
has no error path and returns an ordinary score result at
passedCount = −1, where the spec-modelled checked contract demands an
InvalidInput error. -/
theorem negative_counts_not_rejected :
    computeScoreSpecChecked (-1) 1 0 1 [] none = Except.error "InvalidInput" ∧
    calculateScoreFactors (-1) 1 0 1 [] none =
      { correctnessCoeff := 0, timeCoeff := 1.2, hintPenalty := 1,
        qualityCoeff := 1, finalScore := 0 } := by
  constructor
  · norm_num [computeScoreSpecChecked]
  · norm_num [calculateScoreFactors, correctnessCoeffOf, passRateOf,
      timeCoeffOf, expectedTimeOf, hintPenaltyOf, qualityCoeffOf, jsRound]

/-- C9 (amended): the scoring computation is a pure total function with no
failure modes at all — it performs no input validation; an input with a
negative passedCases or a negative totalCases is processed normally and
yields correctness coefficient 0. -/
theorem negative_counts_yield_zero_correctness (p t : ℤ) (e : ℚ) (d : ℤ)
    (hs : List ℤ) (q : Option ℚ) (h : p < 0 ∨ t < 0) :
    (calculateScoreFactors p t e d hs q).correctnessCoeff = 0 := by
  rw [correctnessCoeff_eq]
  have hr : passRateOf p t ≤ 0 ∨ passRateOf p t = 0 := by
    unfold passRateOf
    split_ifs with ht
    · left
      rcases h with h | h
      · exact le_of_lt (div_neg_of_neg_of_pos (by exact_mod_cast h)
          (by exact_mod_cast ht))
      · exact absurd ht (by omega)
    · right; rfl
  unfold correctnessCoeffOf
  rcases hr with hr | hr <;> split_ifs <;> first | rfl | linarith

/-- C9 witness: the amended theorem instantiated at passedCount −1,
totalCount 1. -/
theorem negative_counts_yield_zero_correctness_witness :
    ((-1 : ℤ) < 0 ∨ (1 : ℤ) < 0) ∧
    (calculateScoreFactors (-1) 1 0 1 [] none).correctnessCoeff = 0 :=
  ⟨Or.inl (by norm_num),
    negative_counts_yield_zero_correctness (-1) 1 0 1 [] none (Or.inl (by norm_num))⟩

/-- C10: a supplied quality coefficient of exactly 0 is treated as absent
by the falsy fallback and behaves as 1.0 — the whole score result equals
the one for quality 1.0 — and an analyzer overallScore of 0 maps to
quality coefficient 1.0 rather than 0. -/
theorem quality_zero_treated_as_one :
    (∀ (p t : ℤ) (e : ℚ) (d : ℤ) (hs : List ℤ),
      calculateScoreFactors p t e d hs (some 0) =
        calculateScoreFactors p t e d hs (some 1)) ∧
    (∀ (p t : ℤ) (e : ℚ) (d : ℤ) (hs : List ℤ),
      (calculateScoreFactors p t e d hs (some 0)).qualityCoeff = 1) ∧
    qualityFromOverallScore 0 = 1 := by
  refine ⟨fun p t e d hs => ?_, fun p t e d hs => ?_, ?_⟩
  · simp [calculateScoreFactors, qualityCoeffOf]
  · simp [calculateScoreFactors, qualityCoeffOf]
  · norm_num [qualityFromOverallScore]

/-- C6: for every category in the problem's category set, the proficiency
update writes clamp(current + delta, 1, 10) rounded to 1 decimal place,
with current defaulting to 5 when the category is absent; every other
category keeps its previous value; the written value lies in [1, 10];
and delta is the claimed step function of the score. Stored values are
assumed ≥ 1, the documented domain of the proficiency map (which also
makes the JS falsy-zero fallback coincide with the absent-key default). -/
theorem proficiency_update_pointwise (prof : String → Option ℚ)
    (types : List String) (score : ℚ) (c : String)
    (hnd : types.Nodup) (hinv : ∀ k v, prof k = some v → 1 ≤ v) :
    updateAlgorithmProficiency prof types score c =
      (if c ∈ types then
         some (round1 (max 1 (min 10 ((prof c).getD 5 + proficiencyDelta score))))
       else prof c) ∧
    (1 : ℚ) ≤ round1 (max 1 (min 10 ((prof c).getD 5 + proficiencyDelta score))) ∧
    round1 (max 1 (min 10 ((prof c).getD 5 + proficiencyDelta score))) ≤ 10 ∧
    proficiencyDelta score =
      (if 90 ≤ score then 0.3 else if 80 ≤ score then 0.2
       else if 70 ≤ score then 0.1 else if 60 ≤ score then 0
       else if 50 ≤ score then -0.1 else -0.2) := by
  have hcur : profCurrent (prof c) = (prof c).getD 5 := by
    unfold profCurrent
    cases hc : prof c with
    | none => rfl
    | some v =>
      have hv := hinv c v hc
      simp [show v ≠ 0 from fun h => by rw [h] at hv; norm_num at hv]
  have hbounds := round1_clamp_bounds (max 1 (min 10 ((prof c).getD 5 + proficiencyDelta score)))
    (le_max_left _ _) (max_le (by norm_num) (min_le_left _ _))
  refine ⟨?_, hbounds.1, hbounds.2, rfl⟩
  unfold updateAlgorithmProficiency
  by_cases hc : c ∈ types
  · rw [if_pos hc, foldl_profStep_mem score types prof c hnd hc, hcur]
  · rw [if_neg hc, foldl_profStep_not_mem score types prof c hc]

/-- C6 witness: the theorem instantiated on an empty map, category list
containing the category, and score 95 (delta +0.3, new value 5.3). -/
theorem proficiency_update_pointwise_witness :
    ([("dp" : String)].Nodup) ∧
    (updateAlgorithmProficiency (fun _ => none) ["dp"] 95 "dp" =
      (if ("dp" : String) ∈ [("dp" : String)] then
         some (round1 (max 1 (min 10 (((fun _ => (none : Option ℚ)) "dp").getD 5 +
           proficiencyDelta 95))))
       else (fun _ => (none : Option ℚ)) "dp") ∧
     (1 : ℚ) ≤ round1 (max 1 (min 10 (((fun _ => (none : Option ℚ)) "dp").getD 5 +
       proficiencyDelta 95))) ∧
     round1 (max 1 (min 10 (((fun _ => (none : Option ℚ)) "dp").getD 5 +
       proficiencyDelta 95))) ≤ 10 ∧
     proficiencyDelta 95 =
       (if (90 : ℚ) ≤ 95 then 0.3 else if (80 : ℚ) ≤ 95 then 0.2
        else if (70 : ℚ) ≤ 95 then 0.1 else if (60 : ℚ) ≤ 95 then 0
        else if (50 : ℚ) ≤ 95 then -0.1 else -0.2)) :=
  ⟨by simp,
    proficiency_update_pointwise (fun _ => none) ["dp"] 95 "dp" (by simp)
      (fun k v h => by simp at h)⟩

/-- C7: with every other input fixed and a nonnegative quality
coefficient, the final score is monotonically non-increasing in the
maximum hint level used: hintsUsed [4] scores no more than [1], which
scores no more than the empty hint set, whose penalty is 1. -/
theorem hint_penalty_monotone (p t : ℤ) (e : ℚ) (d : ℤ) (cq : Option ℚ)
    (hq : 0 ≤ qualityCoeffOf cq) :
    (calculateScoreFactors p t e d [4] cq).finalScore ≤
      (calculateScoreFactors p t e d [1] cq).finalScore ∧
    (calculateScoreFactors p t e d [1] cq).finalScore ≤
      (calculateScoreFactors p t e d [] cq).finalScore ∧
    hintPenaltyOf [] = 1 := by
  have hc := correctnessCoeffOf_nonneg (passRateOf p t)
  have ht := timeCoeffOf_nonneg e d
  have hctq : 0 ≤ correctnessCoeffOf (passRateOf p t) * timeCoeffOf e d *
      qualityCoeffOf cq := mul_nonneg (mul_nonneg hc ht) hq
  have h4 : hintPenaltyOf [4] = 0.5 := by norm_num [hintPenaltyOf]
  have h1 : hintPenaltyOf [1] = 0.95 := by norm_num [hintPenaltyOf]
  have h0 : hintPenaltyOf [] = 1 := rfl
  refine ⟨?_, ?_, h0⟩ <;>
    · show jsRound _ ≤ jsRound _
      apply jsRound_mono
      simp only [h4, h1, h0]
      nlinarith [hctq]

/-- C7 witness: the theorem instantiated at an all-passed submission with
quality coefficient 1. -/
theorem hint_penalty_monotone_witness :
    (0 : ℚ) ≤ qualityCoeffOf (some 1) ∧
    ((calculateScoreFactors 10 10 0 5 [4] (some 1)).finalScore ≤
       (calculateScoreFactors 10 10 0 5 [1] (some 1)).finalScore ∧
     (calculateScoreFactors 10 10 0 5 [1] (some 1)).finalScore ≤
       (calculateScoreFactors 10 10 0 5 [] (some 1)).finalScore ∧
     hintPenaltyOf [] = 1) :=
  ⟨by norm_num [qualityCoeffOf],
    hint_penalty_monotone 10 10 0 5 (some 1) (by norm_num [qualityCoeffOf])⟩

/-- C8: pushing a new score onto a window of length at most 10 yields a
window of length at most 10 (exactly min(n+1, 10)) that ends with the new
score; a full 10-element window drops exactly its front element,
preserving the order of the rest. -/
theorem pushRecentScore_fifo (w : List ℚ) (s : ℚ) (hw : w.length ≤ 10) :
    (pushRecentScore w s).length ≤ 10 ∧
    (pushRecentScore w s).getLast? = some s ∧
    pushRecentScore w s = (if w.length ≤ 9 then w else w.tail) ++ [s] ∧
    (pushRecentScore w s).length = min (w.length + 1) 10 := by
  unfold pushRecentScore
  by_cases h9 : w.length ≤ 9
  · have hdrop : w.length - 9 = 0 := by omega
    rw [hdrop, List.drop_zero, if_pos h9]
    refine ⟨?_, getLast?_append_singleton _ _, rfl, ?_⟩ <;> simp <;> omega
  · have h10 : w.length = 10 := by omega
    have hdrop : w.length - 9 = 1 := by omega
    rw [hdrop, List.drop_one, if_neg h9]
    refine ⟨?_, getLast?_append_singleton _ _, rfl, ?_⟩ <;>
      simp [List.length_tail, h10]

/-- C8 witness: the theorem instantiated on a full 10-element window. -/
theorem pushRecentScore_fifo_witness :
    [(0 : ℚ), 1, 2, 3, 4, 5, 6, 7, 8, 9].length ≤ 10 ∧
    ((pushRecentScore [(0 : ℚ), 1, 2, 3, 4, 5, 6, 7, 8, 9] 99).length ≤ 10 ∧
     (pushRecentScore [(0 : ℚ), 1, 2, 3, 4, 5, 6, 7, 8, 9] 99).getLast? = some 99 ∧
     pushRecentScore [(0 : ℚ), 1, 2, 3, 4, 5, 6, 7, 8, 9] 99 =
       (if [(0 : ℚ), 1, 2, 3, 4, 5, 6, 7, 8, 9].length ≤ 9 then
          [(0 : ℚ), 1, 2, 3, 4, 5, 6, 7, 8, 9]
        else [(0 : ℚ), 1, 2, 3, 4, 5, 6, 7, 8, 9].tail) ++ [99] ∧
     (pushRecentScore [(0 : ℚ), 1, 2, 3, 4, 5, 6, 7, 8, 9] 99).length =
       min ([(0 : ℚ), 1, 2, 3, 4, 5, 6, 7, 8, 9].length + 1) 10) :=
  ⟨by simp, pushRecentScore_fifo [0, 1, 2, 3, 4, 5, 6, 7, 8, 9] 99 (by simp)⟩

/-- C2 counterexample: on a rejected submission (0 of 1 test cases passed,
so the derived status is not accepted) the pipeline still changes the
recent-score window — the unconditional updateRecentPerformance call
pushes the new score — so the window is not left unchanged. -/
theorem recentScores_pushed_on_rejected_submission :
    submissionAccepted 0 1 = false ∧
    (submitUserStatsUpdate (submissionAccepted 0 1) 50
        { totalSubmissions := 3, totalProblemsSolved := 1,
          recentScores := [80] }).recentScores = [80, 50] ∧
    [(80 : ℚ), 50] ≠ [(80 : ℚ)] := by
  have hacc : submissionAccepted 0 1 = false := by
    norm_num [submissionAccepted]
  refine ⟨hacc, ?_, by simp⟩
  rw [hacc]
  norm_num [submitUserStatsUpdate, pushRecentScore]

/-- C2 (amended): the submit pipeline increments totalSubmissions on every
submission and totalProblemsSolved exactly on accepted ones, but pushes
the newly computed final score into the recent-score window on every
submission — once on a rejected submission (by the unconditional
updateRecentPerformance call) and twice on an accepted one (by the
counter update and then updateRecentPerformance again). -/
theorem submit_stats_update_effects (accepted : Bool) (score : ℚ)
    (u : UserStats) :
    (submitUserStatsUpdate accepted score u).totalSubmissions =
      u.totalSubmissions + 1 ∧
    (submitUserStatsUpdate accepted score u).totalProblemsSolved =
      u.totalProblemsSolved + (if accepted then 1 else 0) ∧
    (submitUserStatsUpdate accepted score u).recentScores =
      (if accepted then
         pushRecentScore (pushRecentScore u.recentScores score) score
       else pushRecentScore u.recentScores score) := by
  cases accepted <;> simp [submitUserStatsUpdate]

end CodeTutor
